import Mathlib

/-!
Verification of the procsynth ambient-synthesis core (src/cli/src/lib.rs).

Shallow embedding conventions:
* `f32` values are modelled as exact rationals `ℚ` (every `f32` is a rational);
  trigonometric quantities live in `ℝ` via `Real.sin`.
* Rust's float-to-unsigned cast `as u32` / `as usize` truncates toward zero and
  saturates at 0 for negative inputs; it is modelled by `Nat.floor` on `ℚ`.
* The process-wide random source is external to the core; random draws are
  injected as explicit arguments (a stream of rationals in `[-1, 1)`).
* A Rust panic (out-of-range index) is modelled by `Option.none`.
-/

namespace Procsynth

/-- Rust `f32::clamp(lo, hi)`: returns `lo` when below, `hi` when above,
the value itself otherwise (no NaN arises on the paths used here). -/
def qclamp (x lo hi : ℚ) : ℚ :=
  if x < lo then lo else if x > hi then hi else x

/-- The fully-resolved parameter record `GeneratorParams` from the source.
Range strings (`lfo_range`, `mod_depth_range`) are kept as plain strings as in
the source; they feed only the random voice construction, which is external. -/
structure GeneratorParams where
  filename : String
  sample_rate : ℕ
  duration : ℚ
  lfo_range : String
  mod_depth_range : String
  voices : ℕ
  base_freq : ℚ
  noise_level : ℚ
  attack : ℚ
  release : ℚ
  reverb_mix : ℚ

/-- `GeneratorParams::num_samples`: `(duration * sample_rate as f32) as u32`.
The cast truncates toward zero and saturates at 0, i.e. `Nat.floor`. -/
def GeneratorParams.num_samples (p : GeneratorParams) : ℕ :=
  ⌊p.duration * (p.sample_rate : ℚ)⌋₊

/-- One oscillator voice (`Voice` in the source): fixed frequency, LFO rate,
modulation depth and pan rate, drawn once at setup and immutable afterwards. -/
structure Voice where
  freq : ℚ
  lfo_rate : ℚ
  mod_depth : ℚ
  pan_rate : ℚ

/-- `Voice::synthesize`: unipolar LFO, modulated sine tone, sine panning. -/
noncomputable def Voice.synthesize (v : Voice) (t : ℝ) : ℝ × ℝ :=
  let mod_env := Real.sin (2 * Real.pi * (v.lfo_rate : ℝ) * t) * 0.5 + 0.5
  let sample := Real.sin (2 * Real.pi * (v.freq : ℝ) * t) * (mod_env * (v.mod_depth : ℝ))
  let pan := Real.sin (2 * Real.pi * (v.pan_rate : ℝ) * t)
  let l_gain := (1 - pan) * 0.5
  let r_gain := (1 + pan) * 0.5
  (sample * l_gain, sample * r_gain)

/-- `Generator::envelope`: linear attack ramp, sustain plateau, linear release
ramp, the selected branch clamped to `[0, 1]`. -/
def envelope (p : GeneratorParams) (time : ℚ) : ℚ :=
  qclamp
    (if time < p.attack then time / p.attack
     else if time > p.duration - p.release then (p.duration - time) / p.release
     else 1) 0 1

/-- `Generator::noise`: a uniform draw `u ∈ [-1,1)` scaled by the noise level. -/
def noise (p : GeneratorParams) (u : ℚ) : ℚ :=
  u * p.noise_level

/-- `Generator::burst_env`: the fixed 10 Hz unipolar gate for granular noise. -/
noncomputable def burst_env (t : ℝ) : ℝ :=
  Real.sin (2 * Real.pi * 10 * t) * 0.5 + 0.5

/-- `Generator::granular_noise`: a draw scaled by `noise_level * 0.5` and gated
by the 10 Hz burst envelope. -/
noncomputable def granular_noise (p : GeneratorParams) (t : ℝ) (u : ℚ) : ℝ :=
  (u : ℝ) * (p.noise_level : ℝ) * 0.5 * burst_env t

/-- `Generator::filtered_noise`: one-pole low-pass step with coefficient
`A = 0.1` applied to the scaled draw `w = u * noise_level * 0.3`, updating the
two per-channel filter states; the returned pair is the new state. -/
def filtered_noise (p : GeneratorParams) (st : ℚ × ℚ) (u : ℚ) : ℚ × ℚ :=
  let A : ℚ := 0.1
  let w := u * p.noise_level * 0.3
  (A * w + (1 - A) * st.1, A * w + (1 - A) * st.2)

/-- `Generator::mutate`: adds the same value to both channels and returns the
updated pair. -/
def mutate (left right value : ℝ) : ℝ × ℝ :=
  (left + value, right + value)

/-- One iteration of the Accumulation loop body of `Generator::generate` at
time `t` with per-sample random draws `u = (u_noise, u_granular, u_filtered)`:
sum the voice contributions, add base noise, granular noise and filtered noise,
then combine with the envelope exactly as the source does (via `mutate`, which
adds the envelope value). Returns the emitted stereo sample and the new filter
state. -/
noncomputable def sampleStep (p : GeneratorParams) (voices : List Voice)
    (fst : ℚ × ℚ) (t : ℚ) (u : ℚ × ℚ × ℚ) : (ℝ × ℝ) × (ℚ × ℚ) :=
  let base := voices.foldl
    (fun acc v =>
      let s := v.synthesize (t : ℝ)
      (acc.1 + s.1, acc.2 + s.2)) ((0 : ℝ), (0 : ℝ))
  let n := noise p u.1
  let m1 := mutate base.1 base.2 (n : ℝ)
  let g := granular_noise p (t : ℝ) u.2.1
  let m2 := mutate m1.1 m1.2 g
  let f := filtered_noise p fst u.2.2
  let l3 := m2.1 + (f.1 : ℝ)
  let r3 := m2.2 + (f.2 : ℝ)
  let env := envelope p t
  let m3 := mutate l3 r3 (env : ℝ)
  (m3, f)

/-- The Accumulation loop of `Generator::generate`, processing `k` remaining
sample indices starting at index `i`, threading the filter state. -/
noncomputable def genFrom (p : GeneratorParams) (voices : List Voice)
    (rng : ℕ → ℚ × ℚ × ℚ) : ℕ → ℕ → ℚ × ℚ → List (ℝ × ℝ)
  | _, 0, _ => []
  | i, Nat.succ k, fst =>
    let t : ℚ := (i : ℚ) / (p.sample_rate : ℚ)
    let step := sampleStep p voices fst t (rng i)
    step.1 :: genFrom p voices rng (i + 1) k step.2

/-- `Generator::generate`: run the Accumulation loop over all
`num_samples` indices, starting from zero filter state. -/
noncomputable def generate (p : GeneratorParams) (voices : List Voice)
    (rng : ℕ → ℚ × ℚ × ℚ) : List (ℝ × ℝ) :=
  genFrom p voices rng 0 p.num_samples (0, 0)

/-- The reverb delay-line length: `(0.05 * sample_rate as f32) as usize`. -/
def reverbDelay (sr : ℕ) : ℕ :=
  ⌊(0.05 : ℚ) * (sr : ℚ)⌋₊

/-- The loop of `Generator::apply_reverb` over the sample buffer, carrying the
two delay buffers and the ring index. Each step reads the wet value at `idx`,
emits `dry * (1 - mix) + wet * mix`, writes back `dry + wet * 0.7` at the same
slot, and advances `idx` modulo the buffer length. An out-of-range index (the
Rust panic) is modelled by `none`. -/
def reverbAux (mix : ℚ) : List (ℝ × ℝ) → List ℝ → List ℝ → ℕ → Option (List (ℝ × ℝ))
  | [], _, _, _ => some []
  | s :: rest, bufL, bufR, idx =>
    if h : idx < bufL.length ∧ idx < bufR.length then
      let wetL := bufL.get ⟨idx, h.1⟩
      let wetR := bufR.get ⟨idx, h.2⟩
      let outL := s.1 * (1 - (mix : ℝ)) + wetL * (mix : ℝ)
      let outR := s.2 * (1 - (mix : ℝ)) + wetR * (mix : ℝ)
      match reverbAux mix rest (bufL.set idx (s.1 + wetL * 0.7))
          (bufR.set idx (s.2 + wetR * 0.7)) ((idx + 1) % bufL.length) with
      | some out => some ((outL, outR) :: out)
      | none => none
    else none

/-- `Generator::apply_reverb`: zero-initialised delay buffers of length
`reverbDelay sample_rate`, ring index starting at 0, one forward pass. -/
def apply_reverb (sr : ℕ) (mix : ℚ) (samples : List (ℝ × ℝ)) : Option (List (ℝ × ℝ)) :=
  reverbAux mix samples (List.replicate (reverbDelay sr) 0)
    (List.replicate (reverbDelay sr) 0) 0

/-- Modelled from the spec: the delayed/feedback (wet) path of the reverb — the
sequence of values read from the delay buffers, under the same buffer-update
recurrence as `apply_reverb`. Used to compare the `reverb_mix = 1` output
against the wet path. -/
def wetAux : List (ℝ × ℝ) → List ℝ → List ℝ → ℕ → List (ℝ × ℝ)
  | [], _, _, _ => []
  | s :: rest, bufL, bufR, idx =>
    let wetL := bufL.getD idx 0
    let wetR := bufR.getD idx 0
    (wetL, wetR) :: wetAux rest (bufL.set idx (s.1 + wetL * 0.7))
      (bufR.set idx (s.2 + wetR * 0.7)) ((idx + 1) % bufL.length)

/-- Modelled from the spec: the wet path of the full reverb pass, starting from
zero-initialised delay buffers. -/
def wetTrace (sr : ℕ) (samples : List (ℝ × ℝ)) : List (ℝ × ℝ) :=
  wetAux samples (List.replicate (reverbDelay sr) 0)
    (List.replicate (reverbDelay sr) 0) 0

/-- The error type of the generator (`Error` in the source: WAV or config
errors, both raised only by the external I/O collaborators). -/
inductive GenError where
  | houndError : GenError
  | configError : GenError

/-- The `Generator` state owned by the Mixer/Pipeline. -/
structure Generator where
  params : GeneratorParams
  voices : List Voice
  num_samples : ℕ
  samples : List (ℝ × ℝ)
  filter_prev_l : ℚ
  filter_prev_r : ℚ

/-- `Generator::new`: builds the generator state from the parameters (the
random voice bank is injected, as the random source is external). The source
performs no parameter validation and always returns `Ok`. -/
def Generator.new (p : GeneratorParams) (voices : List Voice) : Except GenError Generator :=
  Except.ok
    { params := p
      voices := voices
      num_samples := p.num_samples
      samples := []
      filter_prev_l := 0
      filter_prev_r := 0 }

/-! Helper lemmas. -/

/-- The clamp to `[0,1]` always lands in `[0,1]`. -/
lemma qclamp_unit_mem (x : ℚ) : 0 ≤ qclamp x 0 1 ∧ qclamp x 0 1 ≤ 1 := by
  unfold qclamp
  split_ifs <;> constructor <;> linarith

/-- The clamp to `[0,1]` is the identity on `[0,1]`. -/
lemma qclamp_unit_id (x : ℚ) (h0 : 0 ≤ x) (h1 : x ≤ 1) : qclamp x 0 1 = x := by
  unfold qclamp
  split_ifs <;> linarith

/-- The Accumulation loop emits exactly as many samples as it is asked for. -/
lemma genFrom_length (p : GeneratorParams) (voices : List Voice)
    (rng : ℕ → ℚ × ℚ × ℚ) :
    ∀ (k i : ℕ) (fst : ℚ × ℚ), (genFrom p voices rng i k fst).length = k := by
  intro k
  induction k with
  | zero => intro i fst; rfl
  | succ n ih =>
    intro i fst
    simp only [genFrom, List.length_cons, ih]

/-- The buffer produced by `generate` has exactly `num_samples` entries. -/
lemma generate_length (p : GeneratorParams) (voices : List Voice)
    (rng : ℕ → ℚ × ℚ × ℚ) :
    (generate p voices rng).length = p.num_samples := by
  unfold generate
  exact genFrom_length p voices rng p.num_samples 0 (0, 0)

/-- A single filtered-noise step preserves equality of the two channel states. -/
lemma filtered_noise_eq_preserved (p : GeneratorParams) (st : ℚ × ℚ) (u : ℚ)
    (h : st.1 = st.2) :
    (filtered_noise p st u).1 = (filtered_noise p st u).2 := by
  simp [filtered_noise, h]

/-- The trace of the filtered-noise layer over a list of draws: the list of
emitted stereo outputs together with the final filter state. -/
def filteredTrace (p : GeneratorParams) : List ℚ → ℚ × ℚ → List (ℚ × ℚ) × (ℚ × ℚ)
  | [], st => ([], st)
  | u :: us, st =>
    let f := filtered_noise p st u
    let rest := filteredTrace p us f
    (f :: rest.1, rest.2)

/-- From an equal-channel state, every emitted filtered-noise pair has equal
channels and the final state has equal channels. -/
lemma filteredTrace_eq (p : GeneratorParams) :
    ∀ (us : List ℚ) (st : ℚ × ℚ), st.1 = st.2 →
      (∀ pr ∈ (filteredTrace p us st).1, pr.1 = pr.2) ∧
        (filteredTrace p us st).2.1 = (filteredTrace p us st).2.2 := by
  intro us
  induction us with
  | nil =>
    intro st h
    refine ⟨?_, h⟩
    intro pr hpr
    cases hpr
  | cons u us ih =>
    intro st h
    have hf := filtered_noise_eq_preserved p st u h
    obtain ⟨hmem, hfin⟩ := ih (filtered_noise p st u) hf
    constructor
    · intro pr hpr
      simp only [filteredTrace, List.mem_cons] at hpr
      rcases hpr with rfl | hpr
      · exact hf
      · exact hmem pr hpr
    · exact hfin

/-- Parameter record exhibiting the envelope combination bug: one sample
(`duration = 1`, `sample_rate = 1`), no noise (`noise_level = 0`), degenerate
ramps (`attack = release = 0`) so the envelope value at `t = 0` is 1. -/
def envBugParams : GeneratorParams :=
  ⟨"", 1, 1, "", "", 1, 330, 0, 0, 0, 0.3⟩

/-- An arbitrary concrete voice for the envelope-bug evaluation. -/
def envBugVoice : Voice :=
  ⟨330, 1 / 10, 1 / 2, 1 / 50⟩

/-!  Claim theorems. -/

/-- C7: for every time `t ≥ 0` and every parameter record with non-negative
attack and release each at most the total duration, the envelope value lies in
the closed interval `[0, 1]`. -/
theorem c7_envelope_bounded (p : GeneratorParams) (t : ℚ)
    (_ht : 0 ≤ t) (_ha0 : 0 ≤ p.attack) (_had : p.attack ≤ p.duration)
    (_hr0 : 0 ≤ p.release) (_hrd : p.release ≤ p.duration) :
    0 ≤ envelope p t ∧ envelope p t ≤ 1 := by
  unfold envelope
  exact qclamp_unit_mem _

/-- Witness for C7 at the default parameters and `t = 3`. -/
theorem c7_envelope_bounded_witness :
    0 ≤ (3 : ℚ) ∧ 0 ≤ (5 : ℚ) ∧ (5 : ℚ) ≤ 60 ∧ 0 ≤ (10 : ℚ) ∧ (10 : ℚ) ≤ 60 ∧
      (0 ≤ envelope ⟨"", 44100, 60, "", "", 4, 330, 0.005, 5, 10, 0.3⟩ 3 ∧
        envelope ⟨"", 44100, 60, "", "", 4, 330, 0.005, 5, 10, 0.3⟩ 3 ≤ 1) :=
  ⟨by norm_num, by norm_num, by norm_num, by norm_num, by norm_num,
    c7_envelope_bounded ⟨"", 44100, 60, "", "", 4, 330, 0.005, 5, 10, 0.3⟩ 3
      (by norm_num) (by norm_num) (by norm_num) (by norm_num) (by norm_num)⟩

/-- C8: the filtered-noise update is a convex combination: writing
`w = u * noise_level * 0.3` for the scaled input, the new state on each channel
lies between the old state on that channel and `w`, inclusive. -/
theorem c8_filtered_noise_convex (p : GeneratorParams) (st : ℚ × ℚ) (u : ℚ) :
    min st.1 (u * p.noise_level * 0.3) ≤ (filtered_noise p st u).1 ∧
      (filtered_noise p st u).1 ≤ max st.1 (u * p.noise_level * 0.3) ∧
      min st.2 (u * p.noise_level * 0.3) ≤ (filtered_noise p st u).2 ∧
      (filtered_noise p st u).2 ≤ max st.2 (u * p.noise_level * 0.3) := by
  have key : ∀ a w : ℚ,
      min a w ≤ 0.1 * w + (1 - 0.1) * a ∧ 0.1 * w + (1 - 0.1) * a ≤ max a w := by
    intro a w
    rcases le_total a w with h | h
    · rw [min_eq_left h, max_eq_right h]
      constructor <;> nlinarith
    · rw [min_eq_right h, max_eq_left h]
      constructor <;> nlinarith
  refine ⟨(key st.1 _).1, (key st.1 _).2, (key st.2 _).1, (key st.2 _).2⟩

/-- C9: both filter states start at 0 in `Generator::new`, each filtered-noise
step applies the same update with the same input to both channels, so the two
states stay equal forever, every emitted filtered-noise pair has equal
channels, and (with `mutate` adding one identical value to both channels) the
other noise layers likewise contribute identically to left and right. -/
theorem c9_filter_states_equal (p : GeneratorParams) (us : List ℚ)
    (voices : List Voice) :
    ((Generator.new p voices).map (fun g => (g.filter_prev_l, g.filter_prev_r)))
        = Except.ok ((0 : ℚ), (0 : ℚ)) ∧
      (∀ pr ∈ (filteredTrace p us (0, 0)).1, pr.1 = pr.2) ∧
      (filteredTrace p us (0, 0)).2.1 = (filteredTrace p us (0, 0)).2.2 ∧
      (∀ l r v : ℝ, mutate l r v = (l + v, r + v)) := by
  obtain ⟨hmem, hfin⟩ := filteredTrace_eq p us (0, 0) rfl
  exact ⟨rfl, hmem, hfin, fun l r v => rfl⟩

/-- C5 counterexample: with the claim's hypotheses alone (non-negative attack
and release, each at most the duration) the stated envelope identities fail.
With `attack = release = 0`, `duration = 10` the envelope at 0 is 1, not 0; and
with `attack = release = 8`, `duration = 10` (ramps overlapping) the envelope
at `attack` is `1/4`, not 1. -/
theorem c5_envelope_counterexample :
    (0 ≤ (0 : ℚ) ∧ (0 : ℚ) ≤ 10 ∧
      envelope ⟨"", 44100, 10, "", "", 4, 330, 0.005, 0, 0, 0.3⟩ 0 = 1) ∧
      (0 ≤ (8 : ℚ) ∧ (8 : ℚ) ≤ 10 ∧
        envelope ⟨"", 44100, 10, "", "", 4, 330, 0.005, 8, 8, 0.3⟩ 8 = 1 / 4) := by
  refine ⟨⟨le_refl 0, by norm_num, ?_⟩, ⟨by norm_num, by norm_num, ?_⟩⟩ <;>
    simp [envelope, qclamp] <;> norm_num

/-- C5 (amended): for every parameter record with positive attack, positive
release and `attack + release ≤ duration`, the envelope satisfies
`envelope 0 = 0`, `envelope attack = 1`, `envelope duration = 0`, and is the
linear ramp `t / attack` throughout `[0, attack)` and the linear ramp
`(duration - t) / release` throughout `(duration - release, duration]` (so in
particular `attack = 5` gives `envelope (5/2) = 1/2`). -/
theorem c5_envelope_shape (p : GeneratorParams)
    (ha : 0 < p.attack) (hr : 0 < p.release)
    (har : p.attack + p.release ≤ p.duration) :
    envelope p 0 = 0 ∧ envelope p p.attack = 1 ∧ envelope p p.duration = 0 ∧
      (∀ t, 0 ≤ t → t < p.attack → envelope p t = t / p.attack) ∧
      (∀ t, p.duration - p.release < t → t ≤ p.duration →
        envelope p t = (p.duration - t) / p.release) := by
  have hattack_le : p.attack ≤ p.duration - p.release := by linarith
  refine ⟨?_, ?_, ?_, ?_, ?_⟩
  · rw [envelope, if_pos ha, zero_div, qclamp_unit_id 0 le_rfl zero_le_one]
  · rw [envelope, if_neg (lt_irrefl p.attack),
      if_neg (not_lt.mpr hattack_le), qclamp_unit_id 1 zero_le_one le_rfl]
  · have hda : ¬ p.duration < p.attack := by push_neg; linarith
    have hdr : p.duration - p.release < p.duration := by linarith
    rw [envelope, if_neg hda, if_pos hdr, sub_self, zero_div,
      qclamp_unit_id 0 le_rfl zero_le_one]
  · intro t ht0 hta
    have h0 : 0 ≤ t / p.attack := div_nonneg ht0 ha.le
    have h1 : t / p.attack ≤ 1 := by
      rw [div_le_one ha]; exact hta.le
    rw [envelope, if_pos hta, qclamp_unit_id _ h0 h1]
  · intro t htl htd
    have hta : ¬ t < p.attack := by push_neg; linarith
    have h0 : 0 ≤ (p.duration - t) / p.release := div_nonneg (by linarith) hr.le
    have h1 : (p.duration - t) / p.release ≤ 1 := by
      rw [div_le_one hr]; linarith
    rw [envelope, if_neg hta, if_pos htl, qclamp_unit_id _ h0 h1]

/-- Witness for C5 at `attack = 5`, `release = 10`, `duration = 20`, including
the claim's instance `envelope (5/2) = 1/2`. -/
theorem c5_envelope_shape_witness :
    0 < (5 : ℚ) ∧ 0 < (10 : ℚ) ∧ (5 : ℚ) + 10 ≤ 20 ∧
      (envelope ⟨"", 44100, 20, "", "", 4, 330, 0.005, 5, 10, 0.3⟩ 0 = 0 ∧
        envelope ⟨"", 44100, 20, "", "", 4, 330, 0.005, 5, 10, 0.3⟩ 5 = 1 ∧
        envelope ⟨"", 44100, 20, "", "", 4, 330, 0.005, 5, 10, 0.3⟩ 20 = 0 ∧
        envelope ⟨"", 44100, 20, "", "", 4, 330, 0.005, 5, 10, 0.3⟩ (5 / 2) = 1 / 2) := by
  have h := c5_envelope_shape ⟨"", 44100, 20, "", "", 4, 330, 0.005, 5, 10, 0.3⟩
    (by norm_num) (by norm_num) (by norm_num)
  refine ⟨by norm_num, by norm_num, by norm_num, h.1, h.2.1, h.2.2.1, ?_⟩
  have := h.2.2.2.1 (5 / 2) (by norm_num) (by norm_num)
  rw [this]
  norm_num

/-- C2 counterexample: with `duration = 3/2` and `sample_rate = 1` (both
positive, both exactly representable in `f32`, product exact), the generated
buffer has 1 sample pair, while `round (3/2 × 1) = 2`: the cast in
`num_samples` truncates toward zero, it does not round to nearest. -/
theorem c2_buffer_length_counterexample :
    0 < (⟨"", 1, 3 / 2, "", "", 4, 330, 0.005, 5, 10, 0.3⟩ : GeneratorParams).duration ∧
      0 < (⟨"", 1, 3 / 2, "", "", 4, 330, 0.005, 5, 10, 0.3⟩ : GeneratorParams).sample_rate ∧
      (generate ⟨"", 1, 3 / 2, "", "", 4, 330, 0.005, 5, 10, 0.3⟩ []
          (fun _ => (0, 0, 0))).length = 1 ∧
      (round ((3 / 2 : ℚ) * (1 : ℕ))).toNat = 2 := by
  refine ⟨by norm_num, by norm_num, ?_, ?_⟩
  · rw [generate_length]
    norm_num [GeneratorParams.num_samples]
    rw [Nat.floor_eq_iff (by norm_num)]
    norm_num
  · have h2 : round ((3 / 2 : ℚ) * (1 : ℕ)) = 2 := by norm_num [round_eq]
    rw [h2]
    rfl

/-- C2 (amended): for every parameter record with positive duration and
positive sample rate, the buffer produced by the Accumulation phase has
exactly `⌊duration × sample_rate⌋` sample pairs — the product truncated toward
zero (Rust's `as u32` cast), not rounded to nearest. -/
theorem c2_buffer_length (p : GeneratorParams) (voices : List Voice)
    (rng : ℕ → ℚ × ℚ × ℚ)
    (_hd : 0 < p.duration) (_hs : 0 < p.sample_rate) :
    (generate p voices rng).length = ⌊p.duration * (p.sample_rate : ℚ)⌋₊ :=
  generate_length p voices rng

/-- Witness for C2 at the spec's scenario `duration = 20`, `sample_rate =
44100`: exactly 882000 sample pairs. -/
theorem c2_buffer_length_witness :
    0 < (20 : ℚ) ∧ 0 < (44100 : ℕ) ∧
      (generate ⟨"", 44100, 20, "", "", 4, 330, 0.005, 5, 10, 0.3⟩ []
        (fun _ => (0, 0, 0))).length = 882000 := by
  refine ⟨by norm_num, by norm_num, ?_⟩
  have h := c2_buffer_length ⟨"", 44100, 20, "", "", 4, 330, 0.005, 5, 10, 0.3⟩ []
    (fun _ => (0, 0, 0)) (by norm_num) (by norm_num)
  rw [h]
  norm_num [GeneratorParams.num_samples]

/-- C4 (code bug): the source performs no parameter validation. At the invalid
record `duration = -1`, `sample_rate = 44100`, `Generator::new` still returns
`Ok` (it always does), and the run silently produces an empty buffer — the
negative product saturates to 0 in the `as u32` cast — instead of the rejection
before Setup that the claim and the spec's error taxonomy require. -/
theorem c4_no_parameter_rejection :
    (⟨"", 44100, -1, "", "", 4, 330, 0.005, 5, 10, 0.3⟩ : GeneratorParams).duration < 0 ∧
      (Generator.new ⟨"", 44100, -1, "", "", 4, 330, 0.005, 5, 10, 0.3⟩ []).isOk = true ∧
      generate ⟨"", 44100, -1, "", "", 4, 330, 0.005, 5, 10, 0.3⟩ []
        (fun _ => (0, 0, 0)) = [] := by
  refine ⟨by norm_num, rfl, ?_⟩
  have h0 : (⟨"", 44100, -1, "", "", 4, 330, 0.005, 5, 10, 0.3⟩ : GeneratorParams).num_samples = 0 := by
    rw [GeneratorParams.num_samples]
    exact Nat.floor_eq_zero.mpr (by norm_num)
  rw [generate, h0]
  rfl

/-- C3 (code bug): `apply_reverb` contains no guard for a zero-length delay
line. At `sample_rate = 10` the delay is `⌊0.05 × 10⌋ = 0`, the delay buffers
are empty, and processing any non-empty buffer immediately indexes them out of
range (a Rust panic, modelled as `none`), contradicting the claim that the
degeneracy is guarded. -/
theorem c3_reverb_zero_delay_unguarded :
    reverbDelay 10 = 0 ∧
      apply_reverb 10 0.3 [((1 : ℝ), (1 : ℝ))] = none := by
  have hd : reverbDelay 10 = 0 := by
    rw [reverbDelay]
    exact Nat.floor_eq_zero.mpr (by norm_num)
  refine ⟨hd, ?_⟩
  rw [apply_reverb, hd]
  simp [reverbAux]

/-- With `mix = 0` every reverb step emits its dry input unchanged. -/
lemma reverbAux_dry (samples : List (ℝ × ℝ)) :
    ∀ (bufL bufR : List ℝ) (idx : ℕ), idx < bufL.length → bufL.length = bufR.length →
      reverbAux 0 samples bufL bufR idx = some samples := by
  induction samples with
  | nil => intro bufL bufR idx h hl; rfl
  | cons s rest ih =>
    intro bufL bufR idx h hl
    have h2 : idx < bufR.length := hl ▸ h
    have hpos : 0 < bufL.length := Nat.lt_of_le_of_lt (Nat.zero_le idx) h
    rw [reverbAux, dif_pos ⟨h, h2⟩]
    have hrec := ih (bufL.set idx (s.1 + bufL.get ⟨idx, h⟩ * 0.7))
      (bufR.set idx (s.2 + bufR.get ⟨idx, h2⟩ * 0.7)) ((idx + 1) % bufL.length)
      (by rw [List.length_set]; exact Nat.mod_lt _ hpos)
      (by rw [List.length_set, List.length_set]; exact hl)
    simp only [hrec]
    norm_num

/-- With `mix = 1` every reverb step emits exactly the wet value it read, so
the output is the wet-path trace. -/
lemma reverbAux_wet (samples : List (ℝ × ℝ)) :
    ∀ (bufL bufR : List ℝ) (idx : ℕ), idx < bufL.length → bufL.length = bufR.length →
      reverbAux 1 samples bufL bufR idx = some (wetAux samples bufL bufR idx) := by
  induction samples with
  | nil => intro bufL bufR idx h hl; rfl
  | cons s rest ih =>
    intro bufL bufR idx h hl
    have h2 : idx < bufR.length := hl ▸ h
    have hpos : 0 < bufL.length := Nat.lt_of_le_of_lt (Nat.zero_le idx) h
    rw [reverbAux, dif_pos ⟨h, h2⟩, wetAux]
    have hgl : bufL.getD idx 0 = bufL.get ⟨idx, h⟩ := by
      rw [List.getD_eq_getElem bufL 0 h, List.get_eq_getElem]
    have hgr : bufR.getD idx 0 = bufR.get ⟨idx, h2⟩ := by
      rw [List.getD_eq_getElem bufR 0 h2, List.get_eq_getElem]
    have hrec := ih (bufL.set idx (s.1 + bufL.get ⟨idx, h⟩ * 0.7))
      (bufR.set idx (s.2 + bufR.get ⟨idx, h2⟩ * 0.7)) ((idx + 1) % bufL.length)
      (by rw [List.length_set]; exact Nat.mod_lt _ hpos)
      (by rw [List.length_set, List.length_set]; exact hl)
    simp only [hgl, hgr, hrec]
    norm_num

/-- C6: the reverb is mix-linear at its endpoints: for every input buffer
(whenever the delay line is non-degenerate), `reverb_mix = 0` returns the
input exactly, and `reverb_mix = 1` returns exactly the delayed/feedback wet
path with no dry component. -/
theorem c6_reverb_mix_linear (sr : ℕ) (samples : List (ℝ × ℝ))
    (h : 0 < reverbDelay sr) :
    apply_reverb sr 0 samples = some samples ∧
      apply_reverb sr 1 samples = some (wetTrace sr samples) := by
  have hlen : 0 < (List.replicate (reverbDelay sr) (0 : ℝ)).length := by
    rwa [List.length_replicate]
  constructor
  · exact reverbAux_dry samples _ _ 0 hlen rfl
  · exact reverbAux_wet samples _ _ 0 hlen rfl

/-- Witness for C6 at `sample_rate = 20` (delay length 1) on a one-sample
buffer. -/
theorem c6_reverb_mix_linear_witness :
    0 < reverbDelay 20 ∧
      (apply_reverb 20 0 [((5 : ℝ), (7 : ℝ))] = some [((5 : ℝ), (7 : ℝ))] ∧
        apply_reverb 20 1 [((5 : ℝ), (7 : ℝ))] =
          some (wetTrace 20 [((5 : ℝ), (7 : ℝ))])) := by
  have hd : 0 < reverbDelay 20 := by
    rw [reverbDelay, Nat.floor_pos]
    norm_num
  exact ⟨hd, c6_reverb_mix_linear 20 [((5 : ℝ), (7 : ℝ))] hd⟩

/-- C1 (code bug): the source combines the envelope by ADDITION, not
multiplication: `Generator::generate` passes the envelope value to
`Generator::mutate`, which adds it to both channels. At `envBugParams` with
one voice and all-zero draws, the additive sum at `t = 0` is `0` on both
channels and the envelope value is `1`, yet the emitted sample is `(1, 1)` —
`sum + env` — where the claimed multiplicative combination would give
`(0 × 1, 0 × 1) = (0, 0)`. -/
theorem c1_envelope_added_not_multiplied :
    envelope envBugParams 0 = 1 ∧
      generate envBugParams [envBugVoice] (fun _ => (0, 0, 0)) = [((1 : ℝ), (1 : ℝ))] ∧
      mutate 0 0 (envelope envBugParams 0 : ℝ) = (1, 1) := by
  have henv : envelope envBugParams 0 = 1 := by
    norm_num [envelope, envBugParams, qclamp]
  have hn : envBugParams.num_samples = 1 := by
    rw [GeneratorParams.num_samples]
    norm_num [envBugParams]
  refine ⟨henv, ?_, by norm_num [mutate, henv]⟩
  rw [generate, hn]
  show (genFrom envBugParams [envBugVoice] (fun _ => (0, 0, 0)) 0 (Nat.succ 0) (0, 0)) = _
  rw [genFrom, genFrom]
  norm_num [sampleStep, noise, granular_noise, filtered_noise, mutate,
    envelope, qclamp, envBugParams, envBugVoice, Voice.synthesize]

/-- C10: every voice, whatever its randomly drawn parameters, synthesizes
exactly `(0, 0)` at time `t = 0`, because `sin 0 = 0`. -/
theorem c10_voice_zero_at_zero (v : Voice) : v.synthesize 0 = (0, 0) := by
  simp [Voice.synthesize]

end Procsynth
